import Mathlib

/-!
# Verification of the Secrets Manager rotation handler

A shallow embedding of the rotation Lambda (`src/unnamed/part_000`) of the
`cdk-secrets-rotation` repository, together with proofs of the specified
properties.

The handler rotates a database credential held in a versioned secret store.
Its pure parts (the password generator) are translated directly; the
effectful parts (store reads/writes, database sessions) are modelled by
explicit state passing: each phase takes the store state, a database oracle
and the event fields, and returns the outcome, the new store state and the
list of external actions it performed, in order.

Machine integers: the TypeScript code draws 32-bit random values and
immediately reduces them modulo a charset size; we model the entropy source
as an unconstrained stream `rng : Nat → Nat` consumed left to right (draw
`k` of an invocation is `rng k`), which subsumes every possible sequence of
`Uint32` draws.
-/

namespace SecretsRotation

/-- `SecretJson` (src lines 9–15): the parsed credential record stored as the
secret's value. -/
structure SecretJson where
  username : String
  password : String
  host : String
  port : Option Nat
  dbname : Option String
deriving DecidableEq, Repr

/-- Modelled from the spec: one version held by the credential store —
a value (the parsed `SecretString`; `none` when the version carries no
string payload) plus its list of stage labels (§6: `get` returns
value+metadata; §3: versions carry stage labels `CURRENT`/`PENDING`). -/
structure SMVersion where
  value : Option SecretJson
  stages : List String
deriving DecidableEq, Repr

/-- Modelled from the spec: the credential store state — a versioned
key/value store keyed by version id (§6), in insertion order. -/
structure Store where
  versions : List (String × SMVersion)
deriving DecidableEq, Repr

/-- The error taxonomy of the handler (spec §7), as thrown by the source:
`notFound` (staged version absent), `noSecretString` (src line 51),
`invalidLength` (src line 59), `unsupportedStep` (src line 38), and the
database-session failures. -/
inductive RotErr where
  | notFound
  | noSecretString
  | invalidLength
  | unsupportedStep (step : String)
  | connectionError
  | authenticationError
  | statementError
deriving DecidableEq, Repr

/-- Connection parameters handed to the `pg` client (src lines 121–127 and
145–151). -/
structure ConnParams where
  host : String
  port : Nat
  user : String
  password : String
  database : String
deriving DecidableEq, Repr

/-- One observable external action of a phase: a store read (`smGet`, with
the requested stage, `none` for the default), a store write (`smPut`, with
the token, the optional payload and the stage list of the command), or a
database connect / query / close. -/
inductive Action where
  | smGet (stage : Option String)
  | smPut (token : String) (value : Option SecretJson) (stages : List String)
  | dbConnect (p : ConnParams)
  | dbQuery (sql : String)
  | dbClose
deriving DecidableEq, Repr

/-- The database collaborator, as an oracle: the outcome of `client.connect()`
for given connection parameters, and of `client.query(sql)`. The rotation
code only branches on success vs thrown error, so an `Except`-valued oracle
captures it. -/
structure Db where
  connectR : ConnParams → Except RotErr Unit
  queryR : ConnParams → String → Except RotErr Unit

instance {ε α : Type} [DecidableEq ε] [DecidableEq α] : DecidableEq (Except ε α) :=
  fun a b =>
  match a, b with
  | .ok x, .ok y => if h : x = y then .isTrue (by rw [h]) else .isFalse (by simp [h])
  | .error x, .error y => if h : x = y then .isTrue (by rw [h]) else .isFalse (by simp [h])
  | .ok _, .error _ => .isFalse (by simp)
  | .error _, .ok _ => .isFalse (by simp)

/-- Result of one phase invocation: the outcome (`.ok` for a normal return,
`.error` for a thrown error), the store state after the call, and the trace
of external actions performed, in order. -/
structure PhaseResult where
  outcome : Except RotErr Unit
  store : Store
  trace : List Action
deriving DecidableEq, Repr

/-! ## Store operations (the external collaborator)

Modelled from the spec: §6 gives the store's interface
(`get(id, stageLabel) -> value+metadata`, `put(id, versionId, value,
stageLabels)`), §4.2 its contract: `putCandidate` creates or overwrites the
version named by `versionId` and gives it exactly the supplied labels, and a
label that is assigned to a version is removed from every other version
(labels are mutually exclusive across versions, §3); a put without a payload
keeps the version's existing value (the promote call of `finish` carries no
`SecretString`). -/

/-- Modelled from the spec: find the first version carrying the given stage
label. -/
def findStage (store : Store) (stage : String) : Option (String × SMVersion) :=
  store.versions.find? (fun e => e.2.stages.contains stage)

/-- Modelled from the spec: remove the given labels from a version (label
reassignment takes them away from every non-target version). -/
def stripStages (labels : List String) (v : SMVersion) : SMVersion :=
  { v with stages := v.stages.filter (fun s => !(labels.contains s)) }

/-- Modelled from the spec: `put(id, versionId, value, stageLabels)` —
creates or overwrites the version `token`, whose stages become exactly
`labels` and whose value becomes `value` when supplied (otherwise the old
value is kept); every other version loses the labels in `labels`. -/
def putSecretValue (store : Store) (token : String) (value : Option SecretJson)
    (labels : List String) : Store :=
  if (store.versions.lookup token).isSome then
    ⟨store.versions.map fun e =>
      if e.1 = token then (e.1, ⟨value.or e.2.value, labels⟩)
      else (e.1, stripStages labels e.2)⟩
  else
    ⟨(store.versions.map fun e => (e.1, stripStages labels e.2))
      ++ [(token, ⟨value, labels⟩)]⟩

/-- `getSecretJson` (src lines 42–55): fetch the version carrying `stage`
(the store raises a not-found error when no version holds the stage), fail
when it has no `SecretString`, and return the parsed record. -/
def getSecretJson (store : Store) (stage : String) : Except RotErr SecretJson :=
  match findStage store stage with
  | none => .error .notFound
  | some e =>
    match e.2.value with
    | none => .error .noSecretString
    | some j => .ok j

/-- The raw get-secret-value response used by `finishSecret` (src lines
166–170): no `VersionStage` is supplied, so the store resolves the default
stage `AWSCURRENT`; the response carries the version id, the optional
payload, and the version's stages — which the store returns as an array
(a `List String`), never as a map. -/
structure GetResponse where
  versionId : String
  secretString : Option SecretJson
  versionStages : Option (List String)
deriving DecidableEq, Repr

/-- Modelled from the spec: the store's `get` without an explicit stage
resolves `AWSCURRENT` and returns the value plus metadata of that version. -/
def getSecretValueDefault (store : Store) : Except RotErr GetResponse :=
  match findStage store "AWSCURRENT" with
  | none => .error .notFound
  | some e => .ok ⟨e.1, e.2.value, some e.2.stages⟩

/-! ## Password generator (src lines 57–97) -/

/-- src line 62. -/
def upper : List Char := "ABCDEFGHIJKLMNOPQRSTUVWXYZ".toList

/-- src line 63. -/
def lower : List Char := "abcdefghijklmnopqrstuvwxyz".toList

/-- src line 64. -/
def digits : List Char := "0123456789".toList

/-- src line 65: the fourteen symbols. -/
def symbols : List Char := "!@#$%^&*()_-+=".toList

/-- src line 66: `allChars = upper + lower + digits + symbols`. -/
def allChars : List Char := upper ++ lower ++ digits ++ symbols

/-- `getRandomChar` (src lines 68–72): one fresh 32-bit draw `r`, reduced
modulo the charset size; the charsets are non-empty so the index is in
bounds and the default is never used. -/
def getRandomChar (charset : List Char) (r : Nat) : Char :=
  charset.getD (r % charset.length) 'A'

/-- One step of the Fisher–Yates loop body (src line 93): the simultaneous
assignment `[a[i], a[j]] = [a[j], a[i]]`. -/
def listSwap (l : List Char) (i j : Nat) : List Char :=
  (l.set i (l.getD j 'A')).set j (l.getD i 'A')

/-- The Fisher–Yates loop (src lines 89–94), running the index down from
`n - 1` to `1`; the iteration at index `i` consumes draw
`base + (n - 1 - i)` of the stream and swaps position `i` with position
`rand % (i + 1)`. -/
def fyLoop (rng : Nat → Nat) (base n : Nat) : List Char → Nat → List Char
  | l, 0 => l
  | l, i + 1 =>
    fyLoop rng base n (listSwap l (i + 1) (rng (base + (n - 1 - (i + 1))) % (i + 2))) i

/-- The whole shuffle of `passwordArray` (src lines 89–94): draws start at
stream position `base` (the draws before the shuffle are `4` guaranteed
characters plus `remainingLength` filler characters). -/
def fisherYates (rng : Nat → Nat) (base : Nat) (l : List Char) : List Char :=
  fyLoop rng base l.length l (l.length - 1)

/-- The buffer before the shuffle (src lines 74–86): the four guaranteed
class members (draws 0–3) followed by `length - 4` characters drawn from
the union alphabet (draws 4, 5, …). -/
def passwordArrayOf (length : Nat) (rng : Nat → Nat) : List Char :=
  [getRandomChar upper (rng 0), getRandomChar lower (rng 1),
   getRandomChar digits (rng 2), getRandomChar symbols (rng 3)]
  ++ (List.range (length - 4)).map (fun k => getRandomChar allChars (rng (4 + k)))

/-- `generateSecurePassword` (src lines 57–97): reject lengths below 4,
build the guaranteed-plus-filler buffer, shuffle it, and join it into a
string. -/
def generateSecurePassword (length : Nat) (rng : Nat → Nat) : Except RotErr String :=
  if length < 4 then .error .invalidLength
  else
    let passwordArray := passwordArrayOf length rng
    .ok (fisherYates rng (4 + (length - 4)) passwordArray).asString

/-! ## The four phases and the handler (src lines 25–189) -/

/-- JavaScript `x || d` on an optional number: `undefined` and `0` are both
falsy (src lines 123 and 147: `current.port || 5432`). -/
def jsOrNat (x : Option Nat) (d : Nat) : Nat :=
  match x with
  | none => d
  | some p => if p = 0 then d else p

/-- JavaScript `x || d` on an optional string: `undefined` and the empty
string are both falsy (src lines 126 and 150: `dbname || 'postgres'`). -/
def jsOrStr (x : Option String) (d : String) : String :=
  match x with
  | none => d
  | some s => if s = "" then d else s

/-- The `pg` client configuration built from a credential record (src lines
121–127 and 145–151). -/
def connParamsOf (j : SecretJson) : ConnParams :=
  { host := j.host, port := jsOrNat j.port 5432, user := j.username,
    password := j.password, database := jsOrStr j.dbname "postgres" }

/-- A single-quote character, written by code point (39). -/
def sq : String := "\x27"

/-- The statement built by `setSecret` (src line 131):
`ALTER USER <username> WITH PASSWORD '<password>'`. -/
def alterUserSql (username password : String) : String :=
  "ALTER USER " ++ username ++ " WITH PASSWORD " ++ sq ++ password ++ sq

/-- `createSecret` (src lines 99–115): read `AWSCURRENT`, generate a
20-character password, and put the record with the new password under the
request token with stage `AWSPENDING`. -/
def createSecret (store : Store) (rng : Nat → Nat) (secretId token : String) :
    PhaseResult :=
  match getSecretJson store "AWSCURRENT" with
  | .error e => ⟨.error e, store, [Action.smGet (some "AWSCURRENT")]⟩
  | .ok current =>
    match generateSecurePassword 20 rng with
    | .error e => ⟨.error e, store, [Action.smGet (some "AWSCURRENT")]⟩
    | .ok newPassword =>
      let newSecret : SecretJson := { current with password := newPassword }
      ⟨.ok (), putSecretValue store token (some newSecret) ["AWSPENDING"],
        [Action.smGet (some "AWSCURRENT"),
         Action.smPut token (some newSecret) ["AWSPENDING"]]⟩

/-- `setSecret` (src lines 117–140): read `AWSCURRENT` and `AWSPENDING`,
connect with the current credentials, run the `ALTER USER` statement for
the pending credentials; the `finally` block closes the client on every
exit path, and the `catch` rethrows. The request token is never used. -/
def setSecret (store : Store) (db : Db) (secretId token : String) : PhaseResult :=
  match getSecretJson store "AWSCURRENT" with
  | .error e => ⟨.error e, store, [Action.smGet (some "AWSCURRENT")]⟩
  | .ok current =>
    match getSecretJson store "AWSPENDING" with
    | .error e =>
      ⟨.error e, store,
        [Action.smGet (some "AWSCURRENT"), Action.smGet (some "AWSPENDING")]⟩
    | .ok pending =>
      let p := connParamsOf current
      let sql := alterUserSql pending.username pending.password
      match db.connectR p with
      | .error e =>
        ⟨.error e, store,
          [Action.smGet (some "AWSCURRENT"), Action.smGet (some "AWSPENDING"),
           Action.dbConnect p, Action.dbClose]⟩
      | .ok _ =>
        match db.queryR p sql with
        | .error e =>
          ⟨.error e, store,
            [Action.smGet (some "AWSCURRENT"), Action.smGet (some "AWSPENDING"),
             Action.dbConnect p, Action.dbQuery sql, Action.dbClose]⟩
        | .ok _ =>
          ⟨.ok (), store,
            [Action.smGet (some "AWSCURRENT"), Action.smGet (some "AWSPENDING"),
             Action.dbConnect p, Action.dbQuery sql, Action.dbClose]⟩

/-- `testSecret` (src lines 142–163): read `AWSPENDING`, connect with the
pending credentials, run `SELECT 1`; the `finally` block closes the client
on every exit path. The request token is never used. -/
def testSecret (store : Store) (db : Db) (secretId token : String) : PhaseResult :=
  match getSecretJson store "AWSPENDING" with
  | .error e => ⟨.error e, store, [Action.smGet (some "AWSPENDING")]⟩
  | .ok pending =>
    let p := connParamsOf pending
    match db.connectR p with
    | .error e =>
      ⟨.error e, store,
        [Action.smGet (some "AWSPENDING"), Action.dbConnect p, Action.dbClose]⟩
    | .ok _ =>
      match db.queryR p "SELECT 1" with
      | .error e =>
        ⟨.error e, store,
          [Action.smGet (some "AWSPENDING"), Action.dbConnect p,
           Action.dbQuery "SELECT 1", Action.dbClose]⟩
      | .ok _ =>
        ⟨.ok (), store,
          [Action.smGet (some "AWSPENDING"), Action.dbConnect p,
           Action.dbQuery "SELECT 1", Action.dbClose]⟩

/-- The metadata derivation of `finishSecret` (src lines 172–174):
`Array.isArray(result.VersionStages) ? {} : result.VersionStages || {}`.
At runtime the response field is either an array of stage names or absent;
an array is sent to the empty record by the `isArray` test, and an absent
field is sent to the empty record by the `|| {}` fallback. -/
def finishMetadata : Option (List String) → List (String × List String)
  | some _ => []
  | none => []

/-- The short-circuit test of `finishSecret` (src line 175):
`metadata[token]?.includes('AWSCURRENT')` — an absent key is falsy. -/
def metadataHasCurrent (md : List (String × List String)) (token : String) : Bool :=
  match md.lookup token with
  | some stages => stages.contains "AWSCURRENT"
  | none => false

/-- `finishSecret` (src lines 165–189): read the secret with the default
stage, derive the stage metadata, return early when the token's version
already appears as `AWSCURRENT` in the metadata, otherwise put the token's
version with stage `AWSCURRENT` (no payload). -/
def finishSecret (store : Store) (secretId token : String) : PhaseResult :=
  match getSecretValueDefault store with
  | .error e => ⟨.error e, store, [Action.smGet none]⟩
  | .ok result =>
    let metadata := finishMetadata result.versionStages
    if metadataHasCurrent metadata token then
      ⟨.ok (), store, [Action.smGet none]⟩
    else
      ⟨.ok (), putSecretValue store token none ["AWSCURRENT"],
        [Action.smGet none, Action.smPut token none ["AWSCURRENT"]]⟩

/-- `handler` (src lines 25–40): dispatch on the step name; an unknown step
throws without touching the store or the database. -/
def handler (store : Store) (db : Db) (rng : Nat → Nat)
    (step secretId token : String) : PhaseResult :=
  if step = "createSecret" then createSecret store rng secretId token
  else if step = "setSecret" then setSecret store db secretId token
  else if step = "testSecret" then testSecret store db secretId token
  else if step = "finishSecret" then finishSecret store secretId token
  else ⟨.error (.unsupportedStep step), store, []⟩

/-! ## Helper lemmas: the password generator -/

lemma getRandomChar_mem (charset : List Char) (r : Nat) (h : charset ≠ []) :
    getRandomChar charset r ∈ charset := by
  have hlen : 0 < charset.length := List.length_pos.mpr h
  have hm : r % charset.length < charset.length := Nat.mod_lt _ hlen
  rw [getRandomChar, List.getD_eq_getElem _ _ hm]
  exact List.getElem_mem hm

lemma listSwap_length (l : List Char) (i j : Nat) :
    (listSwap l i j).length = l.length := by
  simp [listSwap]

lemma listSwap_perm (l : List Char) (i j : Nat) (hi : i < l.length)
    (hj : j < l.length) : (listSwap l i j).Perm l := by
  rw [List.perm_iff_count]
  intro a
  have hj2 : j < (l.set i (l.getD j 'A')).length := by simpa using hj
  rw [listSwap, List.count_set _ _ _ _ hj2, List.count_set _ _ _ _ hi]
  simp only [beq_iff_eq, List.getD_eq_getElem _ _ hj, List.getD_eq_getElem _ _ hi,
    List.getElem_set, ite_self]
  have hmemi : l[i] ∈ l := List.getElem_mem hi
  have hmemj : l[j] ∈ l := List.getElem_mem hj
  by_cases h1 : l[i] = a
  · have hcount : 0 < l.count a := List.count_pos_iff.mpr (h1 ▸ hmemi)
    by_cases h2 : l[j] = a <;> simp [h1, h2] <;> omega
  · by_cases h2 : l[j] = a <;> simp [h1, h2] <;> omega

lemma fyLoop_length (rng : Nat → Nat) (base n : Nat) :
    ∀ (i : Nat) (l : List Char), (fyLoop rng base n l i).length = l.length := by
  intro i
  induction i with
  | zero => intro l; rfl
  | succ k ih =>
    intro l
    rw [fyLoop, ih, listSwap_length]

lemma fyLoop_perm (rng : Nat → Nat) (base n : Nat) :
    ∀ (i : Nat) (l : List Char), i < l.length → (fyLoop rng base n l i).Perm l := by
  intro i
  induction i with
  | zero => intro l _; exact List.Perm.refl l
  | succ k ih =>
    intro l h
    have hj : rng (base + (n - 1 - (k + 1))) % (k + 2) < l.length := by
      have := Nat.mod_lt (rng (base + (n - 1 - (k + 1)))) (show 0 < k + 2 by omega)
      omega
    have hswap := listSwap_perm l (k + 1) (rng (base + (n - 1 - (k + 1))) % (k + 2)) h hj
    have hlen : (listSwap l (k + 1) (rng (base + (n - 1 - (k + 1))) % (k + 2))).length
        = l.length := listSwap_length _ _ _
    have hk : k < (listSwap l (k + 1) (rng (base + (n - 1 - (k + 1))) % (k + 2))).length := by
      rw [hlen]; omega
    exact (ih _ hk).trans hswap

lemma fisherYates_perm (rng : Nat → Nat) (base : Nat) (l : List Char) :
    (fisherYates rng base l).Perm l := by
  unfold fisherYates
  rcases Nat.eq_zero_or_pos l.length with h | h
  · have : l = [] := List.length_eq_zero.mp h
    subst this
    exact List.Perm.refl _
  · exact fyLoop_perm rng base l.length (l.length - 1) l (by omega)

lemma passwordArrayOf_length (length : Nat) (rng : Nat → Nat) :
    (passwordArrayOf length rng).length = 4 + (length - 4) := by
  simp [passwordArrayOf]
  omega

lemma passwordArrayOf_subset (length : Nat) (rng : Nat → Nat) :
    ∀ c ∈ passwordArrayOf length rng, c ∈ allChars := by
  intro c hc
  rcases List.mem_append.mp hc with hg | hr
  · have h1 : upper ⊆ allChars := fun x hx =>
      List.mem_append.mpr (Or.inl (List.mem_append.mpr (Or.inl (List.mem_append.mpr (Or.inl hx)))))
    have h2 : lower ⊆ allChars := fun x hx =>
      List.mem_append.mpr (Or.inl (List.mem_append.mpr (Or.inl (List.mem_append.mpr (Or.inr hx)))))
    have h3 : digits ⊆ allChars := fun x hx =>
      List.mem_append.mpr (Or.inl (List.mem_append.mpr (Or.inr hx)))
    have h4 : symbols ⊆ allChars := fun x hx => List.mem_append.mpr (Or.inr hx)
    simp only [List.mem_cons, List.mem_singleton] at hg
    rcases hg with h | h | h | h | h
    · exact h ▸ h1 (getRandomChar_mem upper _ (by decide))
    · exact h ▸ h2 (getRandomChar_mem lower _ (by decide))
    · exact h ▸ h3 (getRandomChar_mem digits _ (by decide))
    · exact h ▸ h4 (getRandomChar_mem symbols _ (by decide))
    · cases h
  · rcases List.mem_map.mp hr with ⟨k, _, hk⟩
    exact hk ▸ getRandomChar_mem allChars _ (by decide)

lemma generateSecurePassword_ok (length : Nat) (rng : Nat → Nat) (h : ¬ length < 4) :
    generateSecurePassword length rng =
      .ok (fisherYates rng (4 + (length - 4)) (passwordArrayOf length rng)).asString := by
  simp [generateSecurePassword, h]

/-! ## Claim theorems (part 1) -/

/-- C4: for every length ≥ 4 and every sequence of RNG draws,
`generateSecurePassword` succeeds with a string of exactly `length`
characters that is a permutation of the pre-shuffle buffer (the shuffle
preserves the multiset of characters) and contains at least one uppercase
letter, one lowercase letter, one digit and one symbol. -/
theorem generate_length_and_classes (length : Nat) (rng : Nat → Nat) (h : 4 ≤ length) :
    ∃ pw : String, generateSecurePassword length rng = .ok pw ∧
      pw.length = length ∧
      pw.toList.Perm (passwordArrayOf length rng) ∧
      (∃ c ∈ pw.toList, c ∈ upper) ∧ (∃ c ∈ pw.toList, c ∈ lower) ∧
      (∃ c ∈ pw.toList, c ∈ digits) ∧ (∃ c ∈ pw.toList, c ∈ symbols) := by
  have hnl : ¬ length < 4 := by omega
  refine ⟨(fisherYates rng (4 + (length - 4)) (passwordArrayOf length rng)).asString,
    generateSecurePassword_ok length rng hnl, ?_, ?_, ?_, ?_, ?_, ?_⟩
  · show (fisherYates rng (4 + (length - 4)) (passwordArrayOf length rng)).length = length
    rw [fisherYates, fyLoop_length, passwordArrayOf_length]
    omega
  · exact fisherYates_perm rng _ _
  · refine ⟨getRandomChar upper (rng 0),
      (fisherYates_perm rng _ _).mem_iff.mpr (by simp [passwordArrayOf]), ?_⟩
    exact getRandomChar_mem upper _ (by decide)
  · refine ⟨getRandomChar lower (rng 1),
      (fisherYates_perm rng _ _).mem_iff.mpr (by simp [passwordArrayOf]), ?_⟩
    exact getRandomChar_mem lower _ (by decide)
  · refine ⟨getRandomChar digits (rng 2),
      (fisherYates_perm rng _ _).mem_iff.mpr (by simp [passwordArrayOf]), ?_⟩
    exact getRandomChar_mem digits _ (by decide)
  · refine ⟨getRandomChar symbols (rng 3),
      (fisherYates_perm rng _ _).mem_iff.mpr (by simp [passwordArrayOf]), ?_⟩
    exact getRandomChar_mem symbols _ (by decide)

/-- C4 witness: the theorem applied at `length = 4` and a concrete stream. -/
theorem generate_length_and_classes_witness :
    ∃ pw : String, generateSecurePassword 4 (fun _ => 0) = .ok pw ∧
      pw.length = 4 ∧
      pw.toList.Perm (passwordArrayOf 4 (fun _ => 0)) ∧
      (∃ c ∈ pw.toList, c ∈ upper) ∧ (∃ c ∈ pw.toList, c ∈ lower) ∧
      (∃ c ∈ pw.toList, c ∈ digits) ∧ (∃ c ∈ pw.toList, c ∈ symbols) :=
  generate_length_and_classes 4 (fun _ => 0) (by decide)

/-- C8: a length below 4 fails with the invalid-length error, and an event
whose step is none of the four known phases fails with the unsupported-step
error, leaving the store untouched and performing no store or database
action. -/
theorem short_length_and_unknown_step (length : Nat) (rng : Nat → Nat)
    (h : length < 4) (store : Store) (db : Db) (rng2 : Nat → Nat)
    (step secretId token : String)
    (hstep : step ≠ "createSecret" ∧ step ≠ "setSecret" ∧
             step ≠ "testSecret" ∧ step ≠ "finishSecret") :
    generateSecurePassword length rng = .error .invalidLength ∧
    handler store db rng2 step secretId token =
      ⟨.error (.unsupportedStep step), store, []⟩ := by
  obtain ⟨h1, h2, h3, h4⟩ := hstep
  constructor
  · simp [generateSecurePassword, h]
  · simp [handler, h1, h2, h3, h4]

/-- C8 witness: length 3 and the step name "rotate". -/
theorem short_length_and_unknown_step_witness :
    generateSecurePassword 3 (fun _ => 0) = .error .invalidLength ∧
    handler ⟨[]⟩ ⟨fun _ => .ok (), fun _ _ => .ok ()⟩ (fun _ => 0) "rotate" "sid" "tok" =
      ⟨.error (.unsupportedStep "rotate"), ⟨[]⟩, []⟩ :=
  short_length_and_unknown_step 3 (fun _ => 0) (by decide)
    ⟨[]⟩ ⟨fun _ => .ok (), fun _ _ => .ok ()⟩ (fun _ => 0) "rotate" "sid" "tok"
    (by refine ⟨?_, ?_, ?_, ?_⟩ <;> decide)

/-- C9: `setSecret` and `testSecret` never consult the request token — for
any fixed store and database oracle, two invocations that differ only in
the token are identical in outcome, store effect and action trace. -/
theorem set_test_token_independent (store : Store) (db : Db)
    (secretId t1 t2 : String) :
    setSecret store db secretId t1 = setSecret store db secretId t2 ∧
    testSecret store db secretId t1 = testSecret store db secretId t2 :=
  ⟨rfl, rfl⟩

/-- C5: invoking the set phase when no version carries `AWSPENDING` (while
`AWSCURRENT` resolves to a record) fails with the not-found error, leaves
the store unchanged, and performs no database action at all — the failure
happens before any session is opened. -/
theorem set_without_pending (store : Store) (db : Db) (secretId token : String)
    (cur : SecretJson) (h1 : getSecretJson store "AWSCURRENT" = .ok cur)
    (h2 : findStage store "AWSPENDING" = none) :
    setSecret store db secretId token =
      ⟨.error .notFound, store,
        [Action.smGet (some "AWSCURRENT"), Action.smGet (some "AWSPENDING")]⟩ ∧
    (∀ p, Action.dbConnect p ∉ (setSecret store db secretId token).trace) := by
  have hpend : getSecretJson store "AWSPENDING" = .error .notFound := by
    simp [getSecretJson, h2]
  have hmain : setSecret store db secretId token =
      ⟨.error .notFound, store,
        [Action.smGet (some "AWSCURRENT"), Action.smGet (some "AWSPENDING")]⟩ := by
    simp [setSecret, h1, hpend]
  exact ⟨hmain, by rw [hmain]; simp⟩

/-- C5 witness: a store holding only a current version. -/
theorem set_without_pending_witness :
    setSecret ⟨[("v0", ⟨some ⟨"app", "old1", "db", some 5432, some "postgres"⟩,
        ["AWSCURRENT"]⟩)]⟩ ⟨fun _ => .ok (), fun _ _ => .ok ()⟩ "sid" "tok" =
      ⟨.error .notFound,
        ⟨[("v0", ⟨some ⟨"app", "old1", "db", some 5432, some "postgres"⟩,
          ["AWSCURRENT"]⟩)]⟩,
        [Action.smGet (some "AWSCURRENT"), Action.smGet (some "AWSPENDING")]⟩ ∧
    (∀ p, Action.dbConnect p ∉
      (setSecret ⟨[("v0", ⟨some ⟨"app", "old1", "db", some 5432, some "postgres"⟩,
        ["AWSCURRENT"]⟩)]⟩ ⟨fun _ => .ok (), fun _ _ => .ok ()⟩ "sid" "tok").trace) :=
  set_without_pending _ _ "sid" "tok" ⟨"app", "old1", "db", some 5432, some "postgres"⟩
    (by decide) (by decide)

/-- C2: whenever the raw get of `finishSecret` succeeds, the derived
metadata mapping is empty (the response's stage list is an array, which the
`isArray` test sends to the empty record, and an absent field falls back to
the empty record), so the already-current short-circuit is never taken and
`finishSecret` issues the promote write. -/
theorem finish_metadata_always_empty (store : Store) (secretId token : String)
    (result : GetResponse) (h : getSecretValueDefault store = .ok result) :
    finishMetadata result.versionStages = [] ∧
    finishSecret store secretId token =
      ⟨.ok (), putSecretValue store token none ["AWSCURRENT"],
        [Action.smGet none, Action.smPut token none ["AWSCURRENT"]]⟩ := by
  have hmeta : finishMetadata result.versionStages = [] := by
    cases result.versionStages <;> rfl
  refine ⟨hmeta, ?_⟩
  simp [finishSecret, h, hmeta, metadataHasCurrent, List.lookup]

/-- C2 witness: a store whose token version already holds `AWSCURRENT`;
the promote write is issued anyway. -/
theorem finish_metadata_always_empty_witness :
    finishMetadata (GetResponse.mk "tok1"
      (some ⟨"app", "new1", "db", some 5432, some "postgres"⟩)
      (some ["AWSCURRENT"])).versionStages = [] ∧
    finishSecret ⟨[("tok1", ⟨some ⟨"app", "new1", "db", some 5432, some "postgres"⟩,
        ["AWSCURRENT"]⟩)]⟩ "sid" "tok1" =
      ⟨.ok (),
        putSecretValue ⟨[("tok1", ⟨some ⟨"app", "new1", "db", some 5432, some "postgres"⟩,
          ["AWSCURRENT"]⟩)]⟩ "tok1" none ["AWSCURRENT"],
        [Action.smGet none, Action.smPut "tok1" none ["AWSCURRENT"]]⟩ :=
  finish_metadata_always_empty
    ⟨[("tok1", ⟨some ⟨"app", "new1", "db", some 5432, some "postgres"⟩,
      ["AWSCURRENT"]⟩)]⟩ "sid" "tok1"
    (GetResponse.mk "tok1" (some ⟨"app", "new1", "db", some 5432, some "postgres"⟩)
      (some ["AWSCURRENT"]))
    (by decide)

/-- C1: the code diverges from the claimed short-circuit. In a store where
the token's version already holds `AWSCURRENT` (the state after a
successful rotation), a repeated `finishSecret` still returns success and
leaves the store unchanged, but it does not short-circuit: it issues a
(redundant) promote write to the store, contrary to the claim that no
write is issued. -/
theorem finish_repeat_issues_write :
    Action.smPut "tok1" none ["AWSCURRENT"] ∈
      (finishSecret ⟨[("v0", ⟨some ⟨"app", "old1", "db", some 5432, some "postgres"⟩, []⟩),
        ("tok1", ⟨some ⟨"app", "new1", "db", some 5432, some "postgres"⟩,
          ["AWSCURRENT"]⟩)]⟩ "sid" "tok1").trace ∧
    (finishSecret ⟨[("v0", ⟨some ⟨"app", "old1", "db", some 5432, some "postgres"⟩, []⟩),
      ("tok1", ⟨some ⟨"app", "new1", "db", some 5432, some "postgres"⟩,
        ["AWSCURRENT"]⟩)]⟩ "sid" "tok1").store =
      ⟨[("v0", ⟨some ⟨"app", "old1", "db", some 5432, some "postgres"⟩, []⟩),
        ("tok1", ⟨some ⟨"app", "new1", "db", some 5432, some "postgres"⟩,
          ["AWSCURRENT"]⟩)]⟩ ∧
    (finishSecret ⟨[("v0", ⟨some ⟨"app", "old1", "db", some 5432, some "postgres"⟩, []⟩),
      ("tok1", ⟨some ⟨"app", "new1", "db", some 5432, some "postgres"⟩,
        ["AWSCURRENT"]⟩)]⟩ "sid" "tok1").outcome = .ok () := by
  refine ⟨?_, ?_, ?_⟩ <;> decide

/-- C10 counterexample: the union alphabet has 76 characters
(26 + 26 + 10 + 14), not 72 as the claim states. -/
theorem allChars_not_72 : allChars.length = 76 ∧ ¬ allChars.length = 72 := by
  refine ⟨?_, ?_⟩ <;> decide

/-- C3 counterexample: with differing RNG draws the two invocations
generate different passwords, so running `createSecret` twice with the same
token overwrites the candidate and leaves the store in a different state
than running it once — the claim fails for arbitrary pairs of RNG
sequences. -/
theorem create_twice_differs_for_fresh_draws :
    (createSecret
      (createSecret ⟨[("v0", ⟨some ⟨"app", "old1", "db", some 5432, some "postgres"⟩,
        ["AWSCURRENT"]⟩)]⟩ (fun _ => 0) "sid" "tok1").store
      (fun _ => 1) "sid" "tok1").store ≠
    (createSecret ⟨[("v0", ⟨some ⟨"app", "old1", "db", some 5432, some "postgres"⟩,
      ["AWSCURRENT"]⟩)]⟩ (fun _ => 0) "sid" "tok1").store := by
  decide

/-! ## Claim theorems (part 2) -/

/-- C7: in both database-touching phases the session close is on every exit
path: the action trace contains a connect attempt exactly when it ends with
the close emitted by the `finally` block — whether the connect or the query
succeeded or failed. -/
theorem session_closed_on_every_path (store : Store) (db : Db)
    (secretId token : String) :
    ((∃ p, Action.dbConnect p ∈ (setSecret store db secretId token).trace) ↔
      (setSecret store db secretId token).trace.getLast? = some Action.dbClose) ∧
    ((∃ p, Action.dbConnect p ∈ (testSecret store db secretId token).trace) ↔
      (testSecret store db secretId token).trace.getLast? = some Action.dbClose) := by
  constructor
  · cases hc : getSecretJson store "AWSCURRENT" with
    | error e => simp [setSecret, hc]
    | ok current =>
      cases hp : getSecretJson store "AWSPENDING" with
      | error e => simp [setSecret, hc, hp]
      | ok pending =>
        cases hconn : db.connectR (connParamsOf current) with
        | error e => simp [setSecret, hc, hp, hconn]
        | ok u =>
          cases hq : db.queryR (connParamsOf current)
              (alterUserSql pending.username pending.password) with
          | error e => simp [setSecret, hc, hp, hconn, hq]
          | ok w => simp [setSecret, hc, hp, hconn, hq]
  · cases hp : getSecretJson store "AWSPENDING" with
    | error e => simp [testSecret, hp]
    | ok pending =>
      cases hconn : db.connectR (connParamsOf pending) with
      | error e => simp [testSecret, hp, hconn]
      | ok u =>
        cases hq : db.queryR (connParamsOf pending) "SELECT 1" with
        | error e => simp [testSecret, hp, hconn, hq]
        | ok w => simp [testSecret, hp, hconn, hq]

/-- C6: the candidate record written by `createSecret` agrees with the
`AWSCURRENT` record on username, host, port and dbname, and only its
password is replaced by the freshly generated one. -/
theorem candidate_agrees_except_password (store : Store) (rng : Nat → Nat)
    (secretId token : String) (cur : SecretJson)
    (h : getSecretJson store "AWSCURRENT" = .ok cur) :
    ∃ (pw : String) (r : SecretJson),
      generateSecurePassword 20 rng = .ok pw ∧
      createSecret store rng secretId token =
        ⟨.ok (), putSecretValue store token (some r) ["AWSPENDING"],
          [Action.smGet (some "AWSCURRENT"),
           Action.smPut token (some r) ["AWSPENDING"]]⟩ ∧
      r.username = cur.username ∧ r.host = cur.host ∧ r.port = cur.port ∧
      r.dbname = cur.dbname ∧ r.password = pw := by
  have hgen := generateSecurePassword_ok 20 rng (by decide)
  refine ⟨(fisherYates rng (4 + (20 - 4)) (passwordArrayOf 20 rng)).asString,
    { cur with password :=
        (fisherYates rng (4 + (20 - 4)) (passwordArrayOf 20 rng)).asString },
    hgen, ?_, rfl, rfl, rfl, rfl, rfl⟩
  simp [createSecret, h, hgen]

/-- C6 witness: the concrete initial store of the end-to-end scenario. -/
theorem candidate_agrees_except_password_witness :
    ∃ (pw : String) (r : SecretJson),
      generateSecurePassword 20 (fun _ => 0) = .ok pw ∧
      createSecret ⟨[("v0", ⟨some ⟨"app", "old1", "db", some 5432, some "postgres"⟩,
          ["AWSCURRENT"]⟩)]⟩ (fun _ => 0) "sid" "tok1" =
        ⟨.ok (),
          putSecretValue ⟨[("v0", ⟨some ⟨"app", "old1", "db", some 5432, some "postgres"⟩,
            ["AWSCURRENT"]⟩)]⟩ "tok1" (some r) ["AWSPENDING"],
          [Action.smGet (some "AWSCURRENT"),
           Action.smPut "tok1" (some r) ["AWSPENDING"]]⟩ ∧
      r.username = "app" ∧ r.host = "db" ∧ r.port = some 5432 ∧
      r.dbname = some "postgres" ∧ r.password = pw :=
  candidate_agrees_except_password
    ⟨[("v0", ⟨some ⟨"app", "old1", "db", some 5432, some "postgres"⟩,
      ["AWSCURRENT"]⟩)]⟩ (fun _ => 0) "sid" "tok1"
    ⟨"app", "old1", "db", some 5432, some "postgres"⟩ (by decide)

/-- C10 (amended to the actual 76-character alphabet): every character of a
generated password belongs to the fixed union alphabet, which contains
neither a single quote (code 39) nor a backslash (code 92); therefore in
the `ALTER USER` statement the password substring lies strictly between the
two delimiting quotes and contributes no quote of its own. -/
theorem generated_password_safe_alphabet (length : Nat) (rng : Nat → Nat)
    (pw : String) (h : generateSecurePassword length rng = .ok pw) :
    (∀ c ∈ pw.toList, c ∈ allChars) ∧
    allChars.length = 76 ∧
    Char.ofNat 39 ∉ allChars ∧ Char.ofNat 92 ∉ allChars ∧
    Char.ofNat 39 ∉ pw.toList ∧ Char.ofNat 92 ∉ pw.toList ∧
    (∀ u : String, (alterUserSql u pw).toList =
      ("ALTER USER " ++ u ++ " WITH PASSWORD ").toList ++
        Char.ofNat 39 :: (pw.toList ++ [Char.ofNat 39])) ∧
    (sq ++ pw ++ sq).toList.count (Char.ofNat 39) = 2 := by
  by_cases hl : length < 4
  · rw [generateSecurePassword, if_pos hl] at h
    exact absurd h (by simp)
  · rw [generateSecurePassword_ok length rng hl] at h
    have hpw : (fisherYates rng (4 + (length - 4)) (passwordArrayOf length rng)).asString
        = pw := by simpa using h
    have hsub : ∀ c ∈ pw.toList, c ∈ allChars := by
      intro c hc
      rw [← hpw] at hc
      have hc2 : c ∈ fisherYates rng (4 + (length - 4)) (passwordArrayOf length rng) := hc
      exact passwordArrayOf_subset length rng c
        ((fisherYates_perm rng _ _).mem_iff.mp hc2)
    have hq : Char.ofNat 39 ∉ pw.toList := fun hmem => by
      have := hsub _ hmem
      revert this
      decide
    have hb : Char.ofNat 92 ∉ pw.toList := fun hmem => by
      have := hsub _ hmem
      revert this
      decide
    refine ⟨hsub, by decide, by decide, by decide, hq, hb, ?_, ?_⟩
    · intro u
      simp [alterUserSql, sq]
    · have hcount : List.count (Char.ofNat 39) pw.data = 0 := List.count_eq_zero.mpr hq
      simp [sq, hcount]

/-- C10 amended-claim witness: a concrete generated password. -/
theorem generated_password_safe_alphabet_witness :
    (∀ c ∈ ((generateSecurePassword 4 (fun _ => 0)).toOption.getD "").toList,
      c ∈ allChars) ∧
    Char.ofNat 39 ∉ ((generateSecurePassword 4 (fun _ => 0)).toOption.getD "").toList := by
  have h : generateSecurePassword 4 (fun _ => 0) =
      .ok ((generateSecurePassword 4 (fun _ => 0)).toOption.getD "") := by decide
  have := generated_password_safe_alphabet 4 (fun _ => 0)
    ((generateSecurePassword 4 (fun _ => 0)).toOption.getD "") h
  exact ⟨this.1, this.2.2.2.2.1⟩

/-! ## Helper lemmas: the store model -/

lemma contains_iff (l : List String) (a : String) : l.contains a = true ↔ a ∈ l := by
  simp [List.contains_eq_any_beq, List.any_eq_true, beq_iff_eq]

lemma stripStages_value (labels : List String) (ver : SMVersion) :
    (stripStages labels ver).value = ver.value := rfl

lemma stripStages_idem (labels : List String) (ver : SMVersion) :
    stripStages labels (stripStages labels ver) = stripStages labels ver := by
  simp [stripStages, List.filter_filter, Bool.and_self]

lemma strip_pending_keeps_current (ver : SMVersion) :
    (stripStages ["AWSPENDING"] ver).stages.contains "AWSCURRENT" =
      ver.stages.contains "AWSCURRENT" := by
  by_cases h : "AWSCURRENT" ∈ ver.stages
  · have h1 : (stripStages ["AWSPENDING"] ver).stages.contains "AWSCURRENT" = true :=
      (contains_iff _ _).mpr (List.mem_filter.mpr ⟨h, rfl⟩)
    rw [h1, (contains_iff _ _).mpr h]
  · have h1 : (stripStages ["AWSPENDING"] ver).stages.contains "AWSCURRENT" = false := by
      rw [← Bool.not_eq_true]
      intro hc
      exact h (List.mem_filter.mp ((contains_iff _ _).mp hc)).1
    have h2 : ver.stages.contains "AWSCURRENT" = false := by
      rw [← Bool.not_eq_true]
      intro hc
      exact h ((contains_iff _ _).mp hc)
    rw [h1, h2]

lemma fresh_pending_not_current (v : Option SecretJson) (tok : String) :
    ((tok, (⟨v, ["AWSPENDING"]⟩ : SMVersion)).2.stages.contains "AWSCURRENT") = false := rfl

lemma option_or_absorb (v w : Option SecretJson) : v.or (v.or w) = v.or w := by
  cases v <;> simp

lemma lookup_isSome_map_keys (l : List (String × SMVersion))
    (f2 : String × SMVersion → SMVersion) (k : String) :
    ((l.map (fun e => (e.1, f2 e))).lookup k).isSome = (l.lookup k).isSome := by
  induction l with
  | nil => rfl
  | cons a t ih =>
    obtain ⟨x, y⟩ := a
    by_cases h : (k == x) = true <;> simp [List.lookup_cons, h, ih]

lemma lookup_append_singleton (l1 : List (String × SMVersion)) (k : String)
    (b : SMVersion) : ((l1 ++ [(k, b)]).lookup k).isSome = true := by
  induction l1 with
  | nil => simp [List.lookup_cons]
  | cons a t ih =>
    obtain ⟨x, y⟩ := a
    by_cases h : (k == x) = true <;> simp [List.lookup_cons, h, ih]

lemma key_ne_of_lookup_none (l : List (String × SMVersion)) (k : String)
    (h : l.lookup k = none) : ∀ e ∈ l, e.1 ≠ k := by
  induction l with
  | nil => intro e he; cases he
  | cons a t ih =>
    obtain ⟨x, y⟩ := a
    intro e he
    rw [List.lookup_cons] at h
    by_cases hk : (k == x) = true
    · simp [hk] at h
    · simp only [hk] at h
      rcases List.mem_cons.mp he with rfl | hmem
      · intro hc
        exact hk (beq_iff_eq.mpr hc.symm)
      · exact ih h e hmem

/-- The shape of the map function of `putSecretValue` in its overwrite
branch, keyed on the first component. -/
lemma put_map_shape (token : String) (v : Option SecretJson) (labels : List String) :
    (fun (e : String × SMVersion) =>
      if e.1 = token then (e.1, (⟨v.or e.2.value, labels⟩ : SMVersion))
      else (e.1, stripStages labels e.2)) =
    (fun (e : String × SMVersion) =>
      (e.1, if e.1 = token then (⟨v.or e.2.value, labels⟩ : SMVersion)
            else stripStages labels e.2)) := by
  funext e
  by_cases h : e.1 = token <;> simp [h]

/-- `putSecretValue` is idempotent: repeating a put with the same token,
payload and labels is a no-op on the store. -/
lemma putSecretValue_idem (store : Store) (token : String) (v : Option SecretJson)
    (labels : List String) :
    putSecretValue (putSecretValue store token v labels) token v labels =
      putSecretValue store token v labels := by
  by_cases h : (store.versions.lookup token).isSome
  · have hput : putSecretValue store token v labels =
        ⟨store.versions.map fun e =>
          if e.1 = token then (e.1, (⟨v.or e.2.value, labels⟩ : SMVersion))
          else (e.1, stripStages labels e.2)⟩ := by
      rw [putSecretValue, if_pos h]
    rw [hput]
    have h2 : ((store.versions.map fun e =>
        if e.1 = token then (e.1, (⟨v.or e.2.value, labels⟩ : SMVersion))
        else (e.1, stripStages labels e.2)).lookup token).isSome = true := by
      rw [put_map_shape, lookup_isSome_map_keys]
      exact h
    rw [putSecretValue]
    rw [if_pos h2]
    congr 1
    rw [List.map_map]
    apply List.map_congr_left
    intro e _
    by_cases he : e.1 = token
    · simp [Function.comp, he, option_or_absorb]
    · simp [Function.comp, he, stripStages_idem]
  · have hnone : store.versions.lookup token = none :=
      Option.not_isSome_iff_eq_none.mp h
    have hput : putSecretValue store token v labels =
        ⟨(store.versions.map fun e => (e.1, stripStages labels e.2))
          ++ [(token, (⟨v, labels⟩ : SMVersion))]⟩ := by
      rw [putSecretValue, if_neg h]
    rw [hput]
    have h2 : (((store.versions.map fun e => (e.1, stripStages labels e.2))
        ++ [(token, (⟨v, labels⟩ : SMVersion))]).lookup token).isSome = true :=
      lookup_append_singleton _ _ _
    rw [putSecretValue]
    rw [if_pos h2]
    congr 1
    rw [List.map_append, List.map_map]
    congr 1
    · apply List.map_congr_left
      intro e he
      have hne : e.1 ≠ token := key_ne_of_lookup_none _ _ hnone e he
      simp [Function.comp, hne, stripStages_idem]
    · simp [Option.or_self]

/-- Unfolding `find?` for the current-version predicate on a cons cell. -/
lemma findCur_cons (x : String × SMVersion) (t : List (String × SMVersion)) :
    (x :: t).find? (fun e => e.2.stages.contains "AWSCURRENT") =
      if (x.2.stages.contains "AWSCURRENT") = true then some x
      else t.find? (fun e => e.2.stages.contains "AWSCURRENT") := by
  by_cases h : (x.2.stages.contains "AWSCURRENT") = true
  · rw [if_pos h]
    exact List.find?_cons_of_pos t h
  · rw [if_neg h]
    exact List.find?_cons_of_neg t h

/-- After a pending put, the first version carrying `AWSCURRENT` in the
overwrite branch: a uniqueness hypothesis on `AWSCURRENT` rules out a
second current version hiding behind a demoted token version. -/
lemma find_current_map_put (l : List (String × SMVersion)) (token : String)
    (v : Option SecretJson)
    (huniq : l.countP (fun e => e.2.stages.contains "AWSCURRENT") ≤ 1) :
    (l.map (fun e =>
      if e.1 = token then (e.1, (⟨v.or e.2.value, ["AWSPENDING"]⟩ : SMVersion))
      else (e.1, stripStages ["AWSPENDING"] e.2))).find?
        (fun e => e.2.stages.contains "AWSCURRENT") =
      match l.find? (fun e => e.2.stages.contains "AWSCURRENT") with
      | none => none
      | some e => if e.1 = token then none
                  else some (e.1, stripStages ["AWSPENDING"] e.2) := by
  induction l with
  | nil => rfl
  | cons a t ih =>
    rw [List.map_cons, findCur_cons, findCur_cons]
    by_cases ha : (a.2.stages.contains "AWSCURRENT") = true
    · rw [if_pos ha]
      have hone : (if (a.2.stages.contains "AWSCURRENT") = true
          then 1 else 0) = 1 := if_pos ha
      have hcount : t.countP (fun e => e.2.stages.contains "AWSCURRENT") = 0 := by
        rw [List.countP_cons, hone] at huniq
        omega
      have ht : ∀ x ∈ t, ¬ (x.2.stages.contains "AWSCURRENT") = true :=
        List.countP_eq_zero.mp hcount
      by_cases htok : a.1 = token
      · have hhead : (((if a.1 = token
            then (a.1, (⟨v.or a.2.value, ["AWSPENDING"]⟩ : SMVersion))
            else (a.1, stripStages ["AWSPENDING"] a.2)) :
              String × SMVersion).2.stages.contains "AWSCURRENT") = false := by
          rw [if_pos htok]
          rfl
        rw [if_neg (by rw [hhead]; exact Bool.false_ne_true)]
        have htail : (t.map (fun e =>
            if e.1 = token then (e.1, (⟨v.or e.2.value, ["AWSPENDING"]⟩ : SMVersion))
            else (e.1, stripStages ["AWSPENDING"] e.2))).find?
              (fun e => e.2.stages.contains "AWSCURRENT") = none := by
          rw [List.find?_eq_none]
          intro x hx
          rcases List.mem_map.mp hx with ⟨y, hy, rfl⟩
          by_cases hyt : y.1 = token
          · rw [if_pos hyt]
            intro hc
            exact Bool.false_ne_true hc
          · rw [if_neg hyt]
            show ¬ ((stripStages ["AWSPENDING"] y.2).stages.contains "AWSCURRENT") = true
            rw [strip_pending_keeps_current]
            exact ht y hy
        rw [htail]
        show (none : Option (String × SMVersion)) =
          if a.1 = token then none else some (a.1, stripStages ["AWSPENDING"] a.2)
        rw [if_pos htok]
      · have hhead : (((if a.1 = token
            then (a.1, (⟨v.or a.2.value, ["AWSPENDING"]⟩ : SMVersion))
            else (a.1, stripStages ["AWSPENDING"] a.2)) :
              String × SMVersion).2.stages.contains "AWSCURRENT") = true := by
          rw [if_neg htok]
          show ((stripStages ["AWSPENDING"] a.2).stages.contains "AWSCURRENT") = true
          rw [strip_pending_keeps_current]
          exact ha
        rw [if_pos hhead]
        show some (if a.1 = token
            then (a.1, (⟨v.or a.2.value, ["AWSPENDING"]⟩ : SMVersion))
            else (a.1, stripStages ["AWSPENDING"] a.2)) =
          if a.1 = token then none else some (a.1, stripStages ["AWSPENDING"] a.2)
        rw [if_neg htok, if_neg htok]
    · have hzero : (if (a.2.stages.contains "AWSCURRENT") = true
          then 1 else 0) = 0 := if_neg ha
      have huniq2 : t.countP (fun e => e.2.stages.contains "AWSCURRENT") ≤ 1 := by
        rw [List.countP_cons, hzero] at huniq
        omega
      rw [if_neg ha]
      have hhead : ¬ (((if a.1 = token
          then (a.1, (⟨v.or a.2.value, ["AWSPENDING"]⟩ : SMVersion))
          else (a.1, stripStages ["AWSPENDING"] a.2)) :
            String × SMVersion).2.stages.contains "AWSCURRENT") = true := by
        by_cases htok : a.1 = token
        · rw [if_pos htok]
          intro hc
          exact Bool.false_ne_true hc
        · rw [if_neg htok]
          show ¬ ((stripStages ["AWSPENDING"] a.2).stages.contains "AWSCURRENT") = true
          rw [strip_pending_keeps_current]
          exact ha
      rw [if_neg hhead]
      exact ih huniq2

/-- After a pending put in the fresh branch, finding the current version
commutes with the per-entry label strip. -/
lemma find_current_append_fresh (l : List (String × SMVersion)) (token : String)
    (v : Option SecretJson) :
    ((l.map (fun e => (e.1, stripStages ["AWSPENDING"] e.2)))
        ++ [(token, (⟨v, ["AWSPENDING"]⟩ : SMVersion))]).find?
          (fun e => e.2.stages.contains "AWSCURRENT") =
      (l.find? (fun e => e.2.stages.contains "AWSCURRENT")).map
        (fun e => (e.1, stripStages ["AWSPENDING"] e.2)) := by
  rw [List.find?_append, List.find?_map]
  have h1 : List.find? (fun (e : String × SMVersion) =>
      e.2.stages.contains "AWSCURRENT") [(token, ⟨v, ["AWSPENDING"]⟩)] = none := rfl
  have h2 : ((fun (e : String × SMVersion) => e.2.stages.contains "AWSCURRENT") ∘
      (fun e => (e.1, stripStages ["AWSPENDING"] e.2))) =
      (fun (e : String × SMVersion) => e.2.stages.contains "AWSCURRENT") := by
    funext e
    exact strip_pending_keeps_current e.2
  rw [h1, h2]
  cases l.find? (fun e => e.2.stages.contains "AWSCURRENT") <;> rfl

/-- The effect of a pending put on the resolution of `AWSCURRENT`, for any
store whose `AWSCURRENT` label is held by at most one version. -/
lemma findStage_put_pending (store : Store) (token : String) (v : Option SecretJson)
    (huniq : store.versions.countP (fun e => e.2.stages.contains "AWSCURRENT") ≤ 1) :
    findStage (putSecretValue store token v ["AWSPENDING"]) "AWSCURRENT" =
      match findStage store "AWSCURRENT" with
      | none => none
      | some e => if e.1 = token then none
                  else some (e.1, stripStages ["AWSPENDING"] e.2) := by
  by_cases h : (store.versions.lookup token).isSome
  · rw [putSecretValue, if_pos h, findStage]
    exact find_current_map_put store.versions token v huniq
  · rw [putSecretValue, if_neg h, findStage]
    rw [find_current_append_fresh]
    have hnone : store.versions.lookup token = none :=
      Option.not_isSome_iff_eq_none.mp h
    rw [findStage]
    cases hf : store.versions.find? (fun e => e.2.stages.contains "AWSCURRENT") with
    | none => rfl
    | some e =>
      have hne : e.1 ≠ token :=
        key_ne_of_lookup_none _ _ hnone e (List.mem_of_find?_eq_some hf)
      simp [hne]

/-! ## Claim theorems (part 3) -/

/-- C3 (amended): when the two invocations draw the same RNG values — so
the recomputed candidate record is identical — running `createSecret` twice
with the same token leaves the store in the same observable state as
running it once, for every store in which at most one version holds
`AWSCURRENT`; the second put overwrites the candidate version with an
identical record, and `putSecretValue` is idempotent. -/
theorem create_twice_same_draws_is_once (store : Store) (rng : Nat → Nat)
    (secretId token : String)
    (huniq : store.versions.countP (fun e => e.2.stages.contains "AWSCURRENT") ≤ 1) :
    (createSecret (createSecret store rng secretId token).store rng secretId token).store
      = (createSecret store rng secretId token).store := by
  cases hf : findStage store "AWSCURRENT" with
  | none =>
    have hc : getSecretJson store "AWSCURRENT" = .error .notFound := by
      simp [getSecretJson, hf]
    have h1 : (createSecret store rng secretId token).store = store := by
      simp [createSecret, hc]
    rw [h1]
    simp [createSecret, hc]
  | some e0 =>
    cases hv : e0.2.value with
    | none =>
      have hc : getSecretJson store "AWSCURRENT" = .error .noSecretString := by
        simp [getSecretJson, hf, hv]
      have h1 : (createSecret store rng secretId token).store = store := by
        simp [createSecret, hc]
      rw [h1]
      simp [createSecret, hc]
    | some current =>
      have hc : getSecretJson store "AWSCURRENT" = .ok current := by
        simp [getSecretJson, hf, hv]
      have hgen := generateSecurePassword_ok 20 rng (by decide)
      have h1 : (createSecret store rng secretId token).store =
          putSecretValue store token
            (some { current with password :=
              (fisherYates rng (4 + (20 - 4)) (passwordArrayOf 20 rng)).asString })
            ["AWSPENDING"] := by
        simp [createSecret, hc, hgen]
      have hfind0 := findStage_put_pending store token
        (some { current with password :=
          (fisherYates rng (4 + (20 - 4)) (passwordArrayOf 20 rng)).asString }) huniq
      rw [hf] at hfind0
      have hfind2 : findStage (putSecretValue store token
          (some { current with password :=
            (fisherYates rng (4 + (20 - 4)) (passwordArrayOf 20 rng)).asString })
          ["AWSPENDING"]) "AWSCURRENT" =
          if e0.1 = token then none
          else some (e0.1, stripStages ["AWSPENDING"] e0.2) := hfind0
      by_cases htok : e0.1 = token
      · rw [if_pos htok] at hfind2
        have h2 : getSecretJson (putSecretValue store token
            (some { current with password :=
              (fisherYates rng (4 + (20 - 4)) (passwordArrayOf 20 rng)).asString })
            ["AWSPENDING"]) "AWSCURRENT" = .error .notFound := by
          simp [getSecretJson, hfind2]
        rw [h1]
        simp [createSecret, h2]
      · rw [if_neg htok] at hfind2
        have h2 : getSecretJson (putSecretValue store token
            (some { current with password :=
              (fisherYates rng (4 + (20 - 4)) (passwordArrayOf 20 rng)).asString })
            ["AWSPENDING"]) "AWSCURRENT" = .ok current := by
          rw [getSecretJson, hfind2]
          show (match (stripStages ["AWSPENDING"] e0.2).value with
            | none => (Except.error RotErr.noSecretString : Except RotErr SecretJson)
            | some j => Except.ok j) = Except.ok current
          rw [stripStages_value, hv]
        rw [h1]
        simp only [createSecret, h2, hgen]
        exact putSecretValue_idem store token _ _

/-- C3 amended witness: the scenario store, with both invocations drawing
the constant stream. -/
theorem create_twice_same_draws_is_once_witness :
    (createSecret
      (createSecret ⟨[("v0", ⟨some ⟨"app", "old1", "db", some 5432, some "postgres"⟩,
        ["AWSCURRENT"]⟩)]⟩ (fun _ => 0) "sid" "tok1").store
      (fun _ => 0) "sid" "tok1").store =
    (createSecret ⟨[("v0", ⟨some ⟨"app", "old1", "db", some 5432, some "postgres"⟩,
      ["AWSCURRENT"]⟩)]⟩ (fun _ => 0) "sid" "tok1").store :=
  create_twice_same_draws_is_once
    ⟨[("v0", ⟨some ⟨"app", "old1", "db", some 5432, some "postgres"⟩,
      ["AWSCURRENT"]⟩)]⟩ (fun _ => 0) "sid" "tok1" (by decide)

end SecretsRotation
